import Mathlib

/-!
Shallow embedding of the csuite growable byte buffer (src/engine/main/buffer.c,
buffer.h) and of the AEAD cipher-mode registry (src/engine/main/ciphers/aead.c,
aead.h), with theorems checking the natural-language specification against it.

Modelling conventions:
* `size_t` values are natural numbers; arithmetic wraps modulo `2^64` exactly
  where the C expression can wrap (`new_capacity *= 2`, `byte_length + src_len`).
* `int` return values are `Int`; the C cast `(int) src_len` is `toInt32`.
* A buffer's `data` pointer is modelled as the list of its meaningful bytes,
  i.e. the first `byte_length` allocated bytes; the remaining allocated bytes
  are uninitialised in the C code and are never read by any modelled operation.
* `malloc`/`realloc` failure is an explicit `allocOk : Bool` oracle where the
  code checks for it; `NULL` buffer/source pointers are `Option` arguments.
* The host storage byte order is taken to be little endian: `memcpy` between a
  `uintN_t` and the data array is value/byte conversion in little-endian order.
-/

namespace CSuite

/-- `2^64`, the modulus of `size_t` arithmetic. -/
def SIZE_T_MOD : Nat := 2 ^ 64

/-- buffer.h: `#define CBUFFER_DEFAULT_CAPACITY 0x40`. -/
def CBUFFER_DEFAULT_CAPACITY : Nat := 0x40

/-- buffer.h: `#define CBUFFER_GROWTH_FACTOR 0x2`. -/
def CBUFFER_GROWTH_FACTOR : Nat := 0x2

/-- buffer.h: `struct { size_t byte_length; size_t capacity; unsigned char *data; }`.
`data` holds the `byte_length` meaningful bytes of the allocation. -/
structure CBuffer where
  byte_length : Nat
  capacity : Nat
  data : List Nat
deriving DecidableEq

/-- Well-formedness of a modelled buffer: `data` lists exactly the
`byte_length` meaningful bytes, the buffer invariant `byte_length ≤ capacity`
holds, the allocation is nonempty (every constructor allocates at least one
byte), both size fields fit in `size_t`, and bytes are bytes. -/
def WF (b : CBuffer) : Prop :=
  b.byte_length = b.data.length ∧ b.byte_length ≤ b.capacity ∧
    1 ≤ b.capacity ∧ b.capacity < SIZE_T_MOD ∧ ∀ x ∈ b.data, x < 256

instance (b : CBuffer) : Decidable (WF b) := by
  unfold WF; infer_instance

/-- buffer.c: `CBUFFER_BOUNDS_CHECK(buffer, offset, size)` — `0` iff the buffer
is present, `offset <= byte_length` and `byte_length - offset >= size`, else
`-1`.  The subtraction is only evaluated under `offset <= byte_length`, so the
`size_t` subtraction never wraps and `Nat` subtraction is exact here. -/
def CBUFFER_BOUNDS_CHECK (buffer : Option CBuffer) (offset size : Nat) : Int :=
  match buffer with
  | none => -1
  | some b => if offset ≤ b.byte_length ∧ size ≤ b.byte_length - offset then 0 else -1

/-- buffer.c: `cbuffer_alloc` with `malloc` succeeding (on `malloc` failure the
function returns `NULL` and no buffer exists).  A zero request gets the
default capacity. -/
def cbuffer_alloc (capacity : Nat) : CBuffer :=
  { byte_length := 0
    capacity := if capacity > 0 then capacity else CBUFFER_DEFAULT_CAPACITY
    data := [] }

/-- buffer.c: `cbuffer_from`, allocation succeeding.  Absent or empty source
yields a default-capacity empty buffer; otherwise the buffer copies the first
`src_len` source bytes and has `capacity = byte_length = src_len`. -/
def cbuffer_from (source : Option (List Nat)) (src_len : Nat) : CBuffer :=
  match source with
  | none => cbuffer_alloc CBUFFER_DEFAULT_CAPACITY
  | some src =>
    if src_len = 0 then cbuffer_alloc CBUFFER_DEFAULT_CAPACITY
    else { byte_length := src_len, capacity := src_len, data := src.take src_len }

/-- buffer.c, `cbuffer_ensure_capacity` lines 103–111: the growth loop.
`growLoop fuel new_capacity cap size` runs
`while (new_capacity < size) { new_capacity *= 2; if (new_capacity < cap) new_capacity = size; }`
with `size_t` wrap-around on the doubling; `cap` is the (fixed)
`buffer->capacity`.  `none` models non-termination of the C loop within the
given fuel; `growLoop_terminates` below shows fuel `66` always suffices when
`1 ≤ cap`. -/
def growLoop : Nat → Nat → Nat → Nat → Option Nat
  | 0, _, _, _ => none
  | fuel + 1, new_capacity, cap, size =>
    if new_capacity < size then
      growLoop fuel
        (if new_capacity * CBUFFER_GROWTH_FACTOR % SIZE_T_MOD < cap then size
         else new_capacity * CBUFFER_GROWTH_FACTOR % SIZE_T_MOD) cap size
    else
      some new_capacity

/-- Fuel sufficient for `growLoop` whenever the buffer capacity is nonzero. -/
def GROW_FUEL : Nat := 66

/-- buffer.c: `cbuffer_ensure_capacity` on a non-`NULL` buffer. `allocOk`
models whether `realloc` succeeds; on `realloc` failure the function returns
`-1` with the buffer untouched.  `none` models the non-terminating loop (which
the C code runs into only for a zero-capacity buffer). -/
def cbuffer_ensure_capacity (allocOk : Bool) (buffer : CBuffer) (size : Nat) :
    Option (Int × CBuffer) :=
  if size ≤ buffer.capacity then some (0, buffer)
  else
    match growLoop GROW_FUEL buffer.capacity buffer.capacity size with
    | none => none
    | some new_capacity =>
      if allocOk then some (0, { buffer with capacity := new_capacity })
      else some (-1, buffer)

/-- The C cast `(int) src_len` on a 64-bit `size_t`, with the usual
two's-complement wrap to 32 bits. -/
def toInt32 (n : Nat) : Int :=
  if n % 2 ^ 32 < 2 ^ 31 then (n % 2 ^ 32 : Nat) else (n % 2 ^ 32 : Nat) - 2 ^ 32

/-- buffer.c: `cbuffer_write` on a non-`NULL` buffer.  Absent source or
`src_len == 0` is a no-op returning `0`.  The target length
`byte_length + src_len` is `size_t` arithmetic with no overflow guard.  On
success the `src_len` source bytes are appended at `data + byte_length` and
the return value is `(int) src_len`. -/
def cbuffer_write (allocOk : Bool) (buffer : CBuffer) (source : Option (List Nat))
    (src_len : Nat) : Option (Int × CBuffer) :=
  match source with
  | none => some (0, buffer)
  | some src =>
    if src_len = 0 then some (0, buffer)
    else
      let tr_size := (buffer.byte_length + src_len) % SIZE_T_MOD
      match cbuffer_ensure_capacity allocOk buffer tr_size with
      | none => none
      | some (ret, b') =>
        if ret ≠ 0 then some (-1, b')
        else some (toInt32 src_len,
          { b' with byte_length := tr_size, data := b'.data ++ src.take src_len })

/-- buffer.c: `cbuffer_clone` on a non-`NULL` buffer:
`cbuffer_from(buffer->data, buffer->byte_length)`. -/
def cbuffer_clone (buffer : CBuffer) : CBuffer :=
  cbuffer_from (some buffer.data) buffer.byte_length

/-- buffer.c: `cbuffer_subarray` on a non-`NULL` buffer. -/
def cbuffer_subarray (buffer : CBuffer) (start e : Nat) : CBuffer :=
  let e := if e = 0 ∨ e > buffer.byte_length then buffer.byte_length else e
  if start ≥ buffer.byte_length ∨ start ≥ e then cbuffer_alloc 0
  else cbuffer_from (some (buffer.data.drop start)) (e - start)

/-- Modelled from the spec: `equals(a, b)` (declared as `cbuffer_equals` in
buffer.h but not implemented under src) — "true iff lengths are equal and
every byte matches". -/
def cbuffer_equals (a b : CBuffer) : Bool :=
  a.byte_length == b.byte_length && a.data == b.data

/-- buffer.c: `swap_endian_16`.  `value` is `uint16_t`; the shifts happen after
integer promotion and the result is truncated back to 16 bits on return. -/
def swap_endian_16 (value : Nat) : Nat :=
  ((value <<< 0x8) ||| (value >>> 0x8)) % 2 ^ 16

/-- buffer.c: `swap_endian_32`.  All arithmetic is `uint32_t`, i.e. modulo
`2^32`; only the left shifts can wrap. -/
def swap_endian_32 (value : Nat) : Nat :=
  (value <<< 0x18) % 2 ^ 32 ||| ((value &&& 0x0000FF00) <<< 0x8) % 2 ^ 32 |||
    ((value &&& 0x00FF0000) >>> 0x8) ||| (value >>> 0x18)

/-- buffer.c: `swap_endian_64`: `for (bit = 0; bit < 8; bit++)
result |= ((value >> (bit*8)) & 0xFF) << ((7-bit)*8);` — each summand is a
byte shifted below bit 64, so no `uint64_t` wrap occurs. -/
def swap_endian_64 (value : Nat) : Nat :=
  (List.range 0x8).foldl
    (fun result bit => result ||| ((value >>> (bit * 0x8)) &&& 0xFF) <<< ((0x7 - bit) * 0x8)) 0

/-- Little-endian value of a byte list (the host byte order assumed for
`memcpy` between `uintN_t` and the data array). -/
def bytesToValLE : List Nat → Nat
  | [] => 0
  | b :: rest => b + 256 * bytesToValLE rest

/-- The `size` little-endian bytes of a value. -/
def valToBytesLE : Nat → Nat → List Nat
  | 0, _ => []
  | size + 1, v => v % 256 :: valToBytesLE size (v / 256)

/-- In-place store of `bytes` into `l` starting at `offset` (the `memcpy` of a
scalar write). -/
def listSet (l : List Nat) (offset : Nat) (bytes : List Nat) : List Nat :=
  l.take offset ++ bytes ++ l.drop (offset + bytes.length)

/-- buffer.c: the `CBUFFER_READ_VALUE(T, size, swap_func)` macro body: bounds
check (returning plain `0` on failure), `memcpy` of `size` bytes at `offset`
into a `T`, then `swap_func`. -/
def CBUFFER_READ_VALUE (size : Nat) (swap_func : Nat → Nat) (buffer : Option CBuffer)
    (offset : Nat) : Nat :=
  if CBUFFER_BOUNDS_CHECK buffer offset size ≠ 0 then 0
  else match buffer with
    | none => 0
    | some b => swap_func (bytesToValLE ((b.data.drop offset).take size))

/-- buffer.c: the `CBUFFER_WRITE_VALUE(T, size, swap_func)` macro body: bounds
check (returning `0` on failure with the buffer untouched), then the reordered
value's `size` bytes are stored in place and `0` is returned. -/
def CBUFFER_WRITE_VALUE (size : Nat) (swap_func : Nat → Nat) (buffer : Option CBuffer)
    (offset value : Nat) : Option CBuffer × Int :=
  if CBUFFER_BOUNDS_CHECK buffer offset size ≠ 0 then (buffer, 0)
  else match buffer with
    | none => (none, 0)
    | some b =>
      (some { b with data := listSet b.data offset (valToBytesLE size (swap_func value)) }, 0)

/-- Modelled from the spec: `readUint16(buffer, offset, endianness)` — the
concrete scalar accessors are not under src (only the `CBUFFER_READ_VALUE`
macro and the swap functions are); per the spec they bounds-check, copy the
bytes in storage order and reverse them when the requested endianness differs
from the storage order.  `swap` is "requested endianness differs". -/
def cbuffer_read_uint16 (buffer : Option CBuffer) (offset : Nat) (swap : Bool) : Nat :=
  CBUFFER_READ_VALUE 2 (fun v => if swap then swap_endian_16 v else v) buffer offset

/-- Modelled from the spec: `readUint32`, as `cbuffer_read_uint16`. -/
def cbuffer_read_uint32 (buffer : Option CBuffer) (offset : Nat) (swap : Bool) : Nat :=
  CBUFFER_READ_VALUE 4 (fun v => if swap then swap_endian_32 v else v) buffer offset

/-- Modelled from the spec: `readUint64`, as `cbuffer_read_uint16`. -/
def cbuffer_read_uint64 (buffer : Option CBuffer) (offset : Nat) (swap : Bool) : Nat :=
  CBUFFER_READ_VALUE 8 (fun v => if swap then swap_endian_64 v else v) buffer offset

/-- Modelled from the spec: `writeUint16(buffer, offset, value, endianness)`,
the symmetric in-place scalar write built on `CBUFFER_WRITE_VALUE`. -/
def cbuffer_write_uint16 (buffer : Option CBuffer) (offset value : Nat) (swap : Bool) :
    Option CBuffer × Int :=
  CBUFFER_WRITE_VALUE 2 (fun v => if swap then swap_endian_16 v else v) buffer offset value

/-- Modelled from the spec: `writeUint32`, as `cbuffer_write_uint16`. -/
def cbuffer_write_uint32 (buffer : Option CBuffer) (offset value : Nat) (swap : Bool) :
    Option CBuffer × Int :=
  CBUFFER_WRITE_VALUE 4 (fun v => if swap then swap_endian_32 v else v) buffer offset value

/-- Modelled from the spec: `writeUint64`, as `cbuffer_write_uint16`. -/
def cbuffer_write_uint64 (buffer : Option CBuffer) (offset value : Nat) (swap : Bool) :
    Option CBuffer × Int :=
  CBUFFER_WRITE_VALUE 8 (fun v => if swap then swap_endian_64 v else v) buffer offset value

/-- Spec-side byte reordering: "reordered per the requested endianness",
byte-for-byte reversal exactly when the requested order differs from the
storage order. -/
def specReorder (swap : Bool) (l : List Nat) : List Nat :=
  if swap then l.reverse else l

/-- aead.h: the `AEADMode` descriptor. -/
structure AEADMode where
  basename : String
  agid : Nat
  iv_length : Nat
  tag_length : Nat
  allowed_key_sizes : List Nat
deriving DecidableEq

/-- aead.c: `AES_KEY_SIZES = { 0x10, 0x18, 0x20 }`. -/
def AES_KEY_SIZES : List Nat := [0x10, 0x18, 0x20]

/-- aead.c: `CHACHA20_KEY_SIZES = { 0x20 }`. -/
def CHACHA20_KEY_SIZES : List Nat := [0x20]

/-- aead.c: `AEAD_AES_GCM_MODE` (`AES_GCM = 0x15`). -/
def AEAD_AES_GCM_MODE : AEADMode :=
  { basename := "aes-gcm", agid := 0x15, iv_length := 0xC, tag_length := 0x10,
    allowed_key_sizes := AES_KEY_SIZES }

/-- aead.c: `AEAD_AES_CCM_MODE` (`AES_CCM = 0x1C`). -/
def AEAD_AES_CCM_MODE : AEADMode :=
  { basename := "aes-ccm", agid := 0x1C, iv_length := 0xD, tag_length := 0x10,
    allowed_key_sizes := AES_KEY_SIZES }

/-- aead.c: `AEAD_CHACHA20_MODE` (`CHACHA20_POLY1305 = 0xC5`). -/
def AEAD_CHACHA20_MODE : AEADMode :=
  { basename := "chacha20-poly1305", agid := 0xC5, iv_length := 0xC, tag_length := 0x10,
    allowed_key_sizes := CHACHA20_KEY_SIZES }

/-- aead.c: `aead_aes(mode)` — exact `strcmp` against "ccm"/"CCM" then
"gcm"/"GCM"; anything else (including `NULL`) yields no descriptor. -/
def aead_aes (mode : Option String) : Option AEADMode :=
  match mode with
  | none => none
  | some m =>
    if m = "ccm" ∨ m = "CCM" then some AEAD_AES_CCM_MODE
    else if m = "gcm" ∨ m = "GCM" then some AEAD_AES_GCM_MODE
    else none

/-- aead.c: `aead_chacha20()`. -/
def aead_chacha20 : AEADMode := AEAD_CHACHA20_MODE

/-! ### Helper lemmas -/

lemma valToBytesLE_length (size v : Nat) : (valToBytesLE size v).length = size := by
  induction size generalizing v with
  | zero => rfl
  | succ n ih => simp [valToBytesLE, ih]

lemma valToBytesLE_lt (size v : Nat) : ∀ x ∈ valToBytesLE size v, x < 256 := by
  induction size generalizing v with
  | zero => simp [valToBytesLE]
  | succ n ih =>
    simp only [valToBytesLE, List.mem_cons]
    rintro x (rfl | hx)
    · exact Nat.mod_lt _ (by omega)
    · exact ih _ x hx

lemma valToBytes_bytesToVal (l : List Nat) (hb : ∀ x ∈ l, x < 256) :
    valToBytesLE l.length (bytesToValLE l) = l := by
  induction l with
  | nil => rfl
  | cons a rest ih =>
    have ha : a < 256 := hb a (by simp)
    have hrest : ∀ x ∈ rest, x < 256 := fun x hx => hb x (by simp [hx])
    have h1 : (a + 256 * bytesToValLE rest) % 256 = a := by omega
    have h2 : (a + 256 * bytesToValLE rest) / 256 = bytesToValLE rest := by omega
    simp [valToBytesLE, bytesToValLE, h1, h2, ih hrest]

lemma bytesToValLE_lt (l : List Nat) (hb : ∀ x ∈ l, x < 256) :
    bytesToValLE l < 2 ^ (8 * l.length) := by
  induction l with
  | nil => simp [bytesToValLE]
  | cons a rest ih =>
    have ha : a < 256 := hb a (by simp)
    have hr := ih (fun x hx => hb x (by simp [hx]))
    simp only [bytesToValLE, List.length_cons]
    calc a + 256 * bytesToValLE rest < 256 * (bytesToValLE rest + 1) := by omega
      _ ≤ 256 * 2 ^ (8 * rest.length) := Nat.mul_le_mul_left _ (by omega)
      _ = 2 ^ (8 * (rest.length + 1)) := by rw [Nat.mul_add, Nat.pow_add]; ring

lemma dropTake_length (l : List Nat) (offset size : Nat) (h : offset + size ≤ l.length) :
    ((l.drop offset).take size).length = size := by
  simp only [List.length_take, List.length_drop]
  omega

lemma listSet_slice (l : List Nat) (offset size : Nat) (h : offset + size ≤ l.length) :
    listSet l offset ((l.drop offset).take size) = l := by
  unfold listSet
  rw [dropTake_length l offset size h]
  have hdd : List.drop (offset + size) l = List.drop size (List.drop offset l) := by
    rw [List.drop_drop, Nat.add_comm]
  rw [hdd, List.append_assoc, List.take_append_drop, List.take_append_drop]

lemma listSet_length (l : List Nat) (offset : Nat) (bytes : List Nat)
    (h : offset + bytes.length ≤ l.length) : (listSet l offset bytes).length = l.length := by
  simp only [listSet, List.length_append, List.length_take, List.length_drop]
  omega

lemma mem_listSet_lt (l : List Nat) (offset : Nat) (bytes : List Nat)
    (hl : ∀ x ∈ l, x < 256) (hbytes : ∀ x ∈ bytes, x < 256) :
    ∀ x ∈ listSet l offset bytes, x < 256 := by
  intro x hx
  simp only [listSet, List.mem_append] at hx
  rcases hx with (h | h) | h
  · exact hl x (List.take_subset _ _ h)
  · exact hbytes x h
  · exact hl x (List.drop_subset _ _ h)

lemma nat_and_shiftLeft (v m k : Nat) : v &&& (m <<< k) = ((v >>> k) &&& m) <<< k := by
  apply Nat.eq_of_testBit_eq
  intro i
  rcases Nat.lt_or_ge i k with h | h
  · simp [Nat.testBit_and, Nat.testBit_shiftLeft, Nat.not_le.2 h]
  · simp only [Nat.testBit_and, Nat.testBit_shiftLeft, Nat.testBit_shiftRight, ge_iff_le, h,
      decide_True, Bool.true_and]
    rw [Nat.add_sub_cancel' h]

lemma swap16_bytes (l : List Nat) (hl : l.length = 2) (hb : ∀ x ∈ l, x < 256) :
    swap_endian_16 (bytesToValLE l) = bytesToValLE l.reverse := by
  match l, hl with
  | [a, b], _ =>
    have ha : a < 256 := hb a (by simp)
    have hbb : b < 256 := hb b (by simp)
    have hv : bytesToValLE [a, b] = a + 256 * b := by simp [bytesToValLE]
    have hv' : ([a, b] : List Nat).reverse = [b, a] := by rfl
    have hv'' : bytesToValLE [b, a] = b + 256 * a := by simp [bytesToValLE]
    rw [hv, hv', hv'']
    unfold swap_endian_16
    rw [Nat.shiftLeft_eq, Nat.shiftRight_eq_div_pow]
    have hdiv : (a + 256 * b) / 2 ^ 8 = b := by omega
    rw [hdiv, show (a + 256 * b) * 2 ^ 8 = 2 ^ 8 * (a + 256 * b) from Nat.mul_comm _ _,
      ← Nat.mul_add_lt_is_or (show b < 2 ^ 8 by omega) (a + 256 * b)]
    omega

lemma or_disjoint_add (i x y : Nat) (hx : 2 ^ i ∣ x) (hy : y < 2 ^ i) : x ||| y = x + y := by
  obtain ⟨c, rfl⟩ := hx
  exact (Nat.mul_add_lt_is_or hy c).symm

lemma swap32_compute (a b c d : Nat) (ha : a < 256) (hb2 : b < 256) (hc : c < 256)
    (hd : d < 256) :
    swap_endian_32 (a + 256 * b + 65536 * c + 16777216 * d)
      = d + 256 * c + 65536 * b + 16777216 * a := by
  unfold swap_endian_32
  have p8 : (2 : Nat) ^ 8 = 256 := by norm_num
  have p16 : (2 : Nat) ^ 16 = 65536 := by norm_num
  have p24 : (2 : Nat) ^ 24 = 16777216 := by norm_num
  have p32 : (2 : Nat) ^ 32 = 4294967296 := by norm_num
  have hm1 : (a + 256 * b + 65536 * c + 16777216 * d) &&& 0x0000FF00 = b * 256 := by
    rw [show (0x0000FF00 : Nat) = 0xFF <<< 8 from by norm_num [Nat.shiftLeft_eq],
      nat_and_shiftLeft, Nat.shiftRight_eq_div_pow,
      show (0xFF : Nat) = 2 ^ 8 - 1 from by norm_num,
      Nat.and_pow_two_sub_one_eq_mod, Nat.shiftLeft_eq, p8]
    omega
  have hm2 : (a + 256 * b + 65536 * c + 16777216 * d) &&& 0x00FF0000 = c * 65536 := by
    rw [show (0x00FF0000 : Nat) = 0xFF <<< 16 from by norm_num [Nat.shiftLeft_eq],
      nat_and_shiftLeft, Nat.shiftRight_eq_div_pow,
      show (0xFF : Nat) = 2 ^ 8 - 1 from by norm_num,
      Nat.and_pow_two_sub_one_eq_mod, Nat.shiftLeft_eq, p8, p16]
    omega
  have s1 : a * 16777216 ||| b * 65536 = a * 16777216 + b * 65536 :=
    or_disjoint_add 24 _ _ ⟨a, by rw [p24]; ring⟩ (by rw [p24]; omega)
  have s2 : a * 16777216 + b * 65536 ||| c * 256 = a * 16777216 + b * 65536 + c * 256 :=
    or_disjoint_add 16 _ _ ⟨256 * a + b, by rw [p16]; ring⟩ (by rw [p16]; omega)
  have s3 : a * 16777216 + b * 65536 + c * 256 ||| d
      = a * 16777216 + b * 65536 + c * 256 + d :=
    or_disjoint_add 8 _ _ ⟨65536 * a + 256 * b + c, by rw [p8]; ring⟩ (by rw [p8]; omega)
  rw [hm1, hm2]
  simp only [Nat.shiftLeft_eq, Nat.shiftRight_eq_div_pow, p8, p16, p24, p32]
  rw [show (a + 256 * b + 65536 * c + 16777216 * d) * 16777216 % 4294967296 = a * 16777216
      from by omega,
    show b * 256 * 256 % 4294967296 = b * 65536 from by omega,
    show c * 65536 / 256 = c * 256 from by omega,
    show (a + 256 * b + 65536 * c + 16777216 * d) / 16777216 = d from by omega,
    s1, s2, s3]
  omega

lemma swap32_bytes (l : List Nat) (hl : l.length = 4) (hb : ∀ x ∈ l, x < 256) :
    swap_endian_32 (bytesToValLE l) = bytesToValLE l.reverse := by
  match l, hl with
  | [a, b, c, d], _ =>
    have hv : bytesToValLE [a, b, c, d] = a + 256 * b + 65536 * c + 16777216 * d := by
      simp [bytesToValLE]; ring
    have hrev : ([a, b, c, d] : List Nat).reverse = [d, c, b, a] := by rfl
    have hv' : bytesToValLE [d, c, b, a] = d + 256 * c + 65536 * b + 16777216 * a := by
      simp [bytesToValLE]; ring
    rw [hv, hrev, hv']
    exact swap32_compute a b c d (hb a (by simp)) (hb b (by simp)) (hb c (by simp))
      (hb d (by simp))

lemma swap64_compute (a b c d e f g h : Nat) (ha : a < 256) (hb2 : b < 256) (hc : c < 256)
    (hd : d < 256) (he : e < 256) (hf : f < 256) (hg : g < 256) (hh : h < 256) :
    swap_endian_64 (a + 256 * b + 65536 * c + 16777216 * d + 4294967296 * e
        + 1099511627776 * f + 281474976710656 * g + 72057594037927936 * h)
      = h + 256 * g + 65536 * f + 16777216 * e + 4294967296 * d
        + 1099511627776 * c + 281474976710656 * b + 72057594037927936 * a := by
  unfold swap_endian_64
  rw [show List.range 8 = [0,1,2,3,4,5,6,7] from rfl]
  simp only [List.foldl]
  simp only [show (0xFF : Nat) = 2 ^ 8 - 1 from by norm_num, Nat.and_pow_two_sub_one_eq_mod]
  simp only [Nat.shiftRight_eq_div_pow, Nat.shiftLeft_eq]
  norm_num
  rw [show (a + 256 * b + 65536 * c + 16777216 * d + 4294967296 * e + 1099511627776 * f
        + 281474976710656 * g + 72057594037927936 * h) % 256 = a from by omega,
    show (a + 256 * b + 65536 * c + 16777216 * d + 4294967296 * e + 1099511627776 * f
        + 281474976710656 * g + 72057594037927936 * h) / 256 % 256 = b from by omega,
    show (a + 256 * b + 65536 * c + 16777216 * d + 4294967296 * e + 1099511627776 * f
        + 281474976710656 * g + 72057594037927936 * h) / 65536 % 256 = c from by omega,
    show (a + 256 * b + 65536 * c + 16777216 * d + 4294967296 * e + 1099511627776 * f
        + 281474976710656 * g + 72057594037927936 * h) / 16777216 % 256 = d from by omega,
    show (a + 256 * b + 65536 * c + 16777216 * d + 4294967296 * e + 1099511627776 * f
        + 281474976710656 * g + 72057594037927936 * h) / 4294967296 % 256 = e from by omega,
    show (a + 256 * b + 65536 * c + 16777216 * d + 4294967296 * e + 1099511627776 * f
        + 281474976710656 * g + 72057594037927936 * h) / 1099511627776 % 256 = f from by omega,
    show (a + 256 * b + 65536 * c + 16777216 * d + 4294967296 * e + 1099511627776 * f
        + 281474976710656 * g + 72057594037927936 * h) / 281474976710656 % 256 = g
      from by omega,
    show (a + 256 * b + 65536 * c + 16777216 * d + 4294967296 * e + 1099511627776 * f
        + 281474976710656 * g + 72057594037927936 * h) / 72057594037927936 % 256 = h
      from by omega]
  rw [show a * 72057594037927936 ||| b * 281474976710656
        = a * 72057594037927936 + b * 281474976710656 from
      or_disjoint_add 56 _ _ ⟨a, by norm_num; ring⟩ (by norm_num; omega)]
  rw [show a * 72057594037927936 + b * 281474976710656 ||| c * 1099511627776
        = a * 72057594037927936 + b * 281474976710656 + c * 1099511627776 from
      or_disjoint_add 48 _ _ ⟨256 * a + b, by norm_num; ring⟩ (by norm_num; omega)]
  rw [show a * 72057594037927936 + b * 281474976710656 + c * 1099511627776 ||| d * 4294967296
        = a * 72057594037927936 + b * 281474976710656 + c * 1099511627776 + d * 4294967296 from
      or_disjoint_add 40 _ _ ⟨65536 * a + 256 * b + c, by norm_num; ring⟩
        (by norm_num; omega)]
  rw [show a * 72057594037927936 + b * 281474976710656 + c * 1099511627776 + d * 4294967296
          ||| e * 16777216
        = a * 72057594037927936 + b * 281474976710656 + c * 1099511627776 + d * 4294967296
          + e * 16777216 from
      or_disjoint_add 32 _ _ ⟨16777216 * a + 65536 * b + 256 * c + d,
        by norm_num; ring⟩ (by norm_num; omega)]
  rw [show a * 72057594037927936 + b * 281474976710656 + c * 1099511627776 + d * 4294967296
          + e * 16777216 ||| f * 65536
        = a * 72057594037927936 + b * 281474976710656 + c * 1099511627776 + d * 4294967296
          + e * 16777216 + f * 65536 from
      or_disjoint_add 24 _ _
        ⟨4294967296 * a + 16777216 * b + 65536 * c + 256 * d + e,
        by norm_num; ring⟩ (by norm_num; omega)]
  rw [show a * 72057594037927936 + b * 281474976710656 + c * 1099511627776 + d * 4294967296
          + e * 16777216 + f * 65536 ||| g * 256
        = a * 72057594037927936 + b * 281474976710656 + c * 1099511627776 + d * 4294967296
          + e * 16777216 + f * 65536 + g * 256 from
      or_disjoint_add 16 _ _
        ⟨1099511627776 * a + 4294967296 * b + 16777216 * c + 65536 * d + 256 * e + f,
        by norm_num; ring⟩ (by norm_num; omega)]
  rw [show a * 72057594037927936 + b * 281474976710656 + c * 1099511627776 + d * 4294967296
          + e * 16777216 + f * 65536 + g * 256 ||| h
        = a * 72057594037927936 + b * 281474976710656 + c * 1099511627776 + d * 4294967296
          + e * 16777216 + f * 65536 + g * 256 + h from
      or_disjoint_add 8 _ _
        ⟨281474976710656 * a + 1099511627776 * b + 4294967296 * c + 16777216 * d + 65536 * e
          + 256 * f + g, by norm_num; ring⟩ (by norm_num; omega)]
  omega

lemma swap64_bytes (l : List Nat) (hl : l.length = 8) (hb : ∀ x ∈ l, x < 256) :
    swap_endian_64 (bytesToValLE l) = bytesToValLE l.reverse := by
  match l, hl with
  | [a, b, c, d, e, f, g, h], _ =>
    have hv : bytesToValLE [a, b, c, d, e, f, g, h]
        = a + 256 * b + 65536 * c + 16777216 * d + 4294967296 * e
          + 1099511627776 * f + 281474976710656 * g + 72057594037927936 * h := by
      simp [bytesToValLE]; ring
    have hrev : ([a, b, c, d, e, f, g, h] : List Nat).reverse = [h, g, f, e, d, c, b, a] := by
      rfl
    have hv' : bytesToValLE [h, g, f, e, d, c, b, a]
        = h + 256 * g + 65536 * f + 16777216 * e + 4294967296 * d
          + 1099511627776 * c + 281474976710656 * b + 72057594037927936 * a := by
      simp [bytesToValLE]; ring
    rw [hv, hrev, hv']
    exact swap64_compute a b c d e f g h (hb a (by simp)) (hb b (by simp)) (hb c (by simp))
      (hb d (by simp)) (hb e (by simp)) (hb f (by simp)) (hb g (by simp)) (hb h (by simp))

lemma growLoop_succeeds : ∀ j fuel x cap size : Nat, j + 2 ≤ fuel → x < SIZE_T_MOD →
    2 ^ (64 - j) ∣ x → 1 ≤ cap → size < SIZE_T_MOD →
    ∃ r, growLoop fuel x cap size = some r ∧ size ≤ r ∧ r < SIZE_T_MOD ∧
      (r = size ∨ ∃ k, r = x * 2 ^ k % SIZE_T_MOD) := by
  intro j
  induction j with
  | zero =>
    intro fuel x cap size hfuel hx hdvd hcap hsize
    have hx0 : x = 0 :=
      Nat.eq_zero_of_dvd_of_lt (by simpa using hdvd) (by simpa [SIZE_T_MOD] using hx)
    subst hx0
    obtain ⟨f1, rfl⟩ : ∃ f1, fuel = f1 + 1 := ⟨fuel - 1, by omega⟩
    by_cases hs : 0 < size
    · have hstep : growLoop (f1 + 1) 0 cap size = growLoop f1 size cap size := by
        simp [growLoop, hs, show 0 < cap from hcap]
      obtain ⟨f2, rfl⟩ : ∃ f2, f1 = f2 + 1 := ⟨f1 - 1, by omega⟩
      exact ⟨size, by rw [hstep]; simp [growLoop], le_refl _, hsize, Or.inl rfl⟩
    · have hsz : size = 0 := by omega
      subst hsz
      exact ⟨0, by simp [growLoop], le_refl _, by norm_num [SIZE_T_MOD], Or.inl rfl⟩
  | succ j ih =>
    intro fuel x cap size hfuel hx hdvd hcap hsize
    obtain ⟨f1, rfl⟩ : ∃ f1, fuel = f1 + 1 := ⟨fuel - 1, by omega⟩
    by_cases hlt : x < size
    · have hd2 : 2 ^ (64 - j) ∣ x * CBUFFER_GROWTH_FACTOR % SIZE_T_MOD := by
        have h1 : (2 : Nat) ^ (64 - j) ∣ 2 ^ ((64 - (j + 1)) + 1) := pow_dvd_pow 2 (by omega)
        have h2 : (2 : Nat) ^ ((64 - (j + 1)) + 1) ∣ x * 2 := by
          rw [pow_succ]
          exact Nat.mul_dvd_mul hdvd dvd_rfl
        have h3 : (2 : Nat) ^ (64 - j) ∣ SIZE_T_MOD := pow_dvd_pow 2 (by omega)
        show 2 ^ (64 - j) ∣ x * 2 % SIZE_T_MOD
        exact (Nat.dvd_mod_iff h3).2 (h1.trans h2)
      by_cases hsnap : x * CBUFFER_GROWTH_FACTOR % SIZE_T_MOD < cap
      · have hstep : growLoop (f1 + 1) x cap size = growLoop f1 size cap size := by
          simp [growLoop, hlt, hsnap]
        obtain ⟨f2, rfl⟩ : ∃ f2, f1 = f2 + 1 := ⟨f1 - 1, by omega⟩
        exact ⟨size, by rw [hstep]; simp [growLoop], le_refl _, hsize, Or.inl rfl⟩
      · have hstep : growLoop (f1 + 1) x cap size
            = growLoop f1 (x * CBUFFER_GROWTH_FACTOR % SIZE_T_MOD) cap size := by
          simp [growLoop, hlt, hsnap]
        have hdlt : x * CBUFFER_GROWTH_FACTOR % SIZE_T_MOD < SIZE_T_MOD :=
          Nat.mod_lt _ (by norm_num [SIZE_T_MOD])
        obtain ⟨r, hr, hr1, hr2, hr3⟩ :=
          ih f1 (x * CBUFFER_GROWTH_FACTOR % SIZE_T_MOD) cap size (by omega) hdlt hd2 hcap hsize
        refine ⟨r, by rw [hstep]; exact hr, hr1, hr2, ?_⟩
        rcases hr3 with hcase | ⟨k, hk⟩
        · exact Or.inl hcase
        · refine Or.inr ⟨k + 1, ?_⟩
          rw [hk]
          calc x * CBUFFER_GROWTH_FACTOR % SIZE_T_MOD * 2 ^ k % SIZE_T_MOD
              = x * CBUFFER_GROWTH_FACTOR * 2 ^ k % SIZE_T_MOD := Nat.mod_mul_mod
            _ = x * 2 ^ (k + 1) % SIZE_T_MOD := by
                rw [show x * CBUFFER_GROWTH_FACTOR * 2 ^ k = x * 2 ^ (k + 1) from by
                  show x * 2 * 2 ^ k = x * 2 ^ (k + 1); ring]
    · refine ⟨x, by simp [growLoop, hlt], by omega, hx, Or.inr ⟨0, ?_⟩⟩
      simp [Nat.mod_eq_of_lt hx]

lemma growLoop_terminates (cap size : Nat) (h1 : 1 ≤ cap) (hc : cap < SIZE_T_MOD)
    (hs : size < SIZE_T_MOD) :
    ∃ r, growLoop GROW_FUEL cap cap size = some r ∧ size ≤ r ∧ r < SIZE_T_MOD ∧
      (r = size ∨ ∃ k, r = cap * 2 ^ k % SIZE_T_MOD) :=
  growLoop_succeeds 64 GROW_FUEL cap cap size (by norm_num [GROW_FUEL]) hc (by simp) h1 hs

lemma ensure_capacity_true_succeeds (b : CBuffer) (size : Nat) (hcap : 1 ≤ b.capacity)
    (hc : b.capacity < SIZE_T_MOD) (hs : size < SIZE_T_MOD) :
    ∃ b', cbuffer_ensure_capacity true b size = some (0, b') ∧
      b'.byte_length = b.byte_length ∧ b'.data = b.data ∧ size ≤ b'.capacity ∧
      b.capacity ≤ b'.capacity ∧ b'.capacity < SIZE_T_MOD := by
  by_cases hle : size ≤ b.capacity
  · exact ⟨b, by simp [cbuffer_ensure_capacity, hle], rfl, rfl, hle, le_refl _, hc⟩
  · obtain ⟨r, h1, h2, h3, _⟩ := growLoop_terminates b.capacity size hcap hc hs
    refine ⟨{ b with capacity := r }, ?_, rfl, rfl, h2, show b.capacity ≤ r by omega, h3⟩
    simp [cbuffer_ensure_capacity, hle, h1]

lemma ensure_capacity_false_fails (b : CBuffer) (size : Nat) (hcap : 1 ≤ b.capacity)
    (hc : b.capacity < SIZE_T_MOD) (hs : size < SIZE_T_MOD) (hgt : b.capacity < size) :
    cbuffer_ensure_capacity false b size = some (-1, b) := by
  obtain ⟨r, h1, _, _, _⟩ := growLoop_terminates b.capacity size hcap hc hs
  simp [cbuffer_ensure_capacity, Nat.not_le.2 hgt, h1]

lemma toInt32_small (n : Nat) (h : n ≤ 2 ^ 31 - 1) : toInt32 n = (n : Int) := by
  unfold toInt32
  have h1 : n % 2 ^ 32 = n := Nat.mod_eq_of_lt (by omega)
  rw [h1, if_pos (by omega)]

lemma toInt32_ne_of_large (n : Nat) (h : 2 ^ 31 - 1 < n) : toInt32 n ≠ (n : Int) := by
  unfold toInt32
  by_cases hc : n % 2 ^ 32 < 2 ^ 31
  · rw [if_pos hc]
    intro heq
    have : n % 2 ^ 32 = n := by exact_mod_cast heq
    omega
  · rw [if_neg hc]
    intro heq
    have hlt : n % 2 ^ 32 < 2 ^ 32 := Nat.mod_lt _ (by norm_num)
    omega

lemma bounds_check_iff (b : CBuffer) (offset s : Nat) :
    CBUFFER_BOUNDS_CHECK (some b) offset s = 0 ↔ offset + s ≤ b.byte_length := by
  show (if offset ≤ b.byte_length ∧ s ≤ b.byte_length - offset then (0 : Int) else -1) = 0
    ↔ offset + s ≤ b.byte_length
  by_cases h : offset ≤ b.byte_length ∧ s ≤ b.byte_length - offset
  · rw [if_pos h]
    exact ⟨fun _ => by omega, fun _ => rfl⟩
  · rw [if_neg h]
    exact ⟨fun hc => absurd hc (by decide), fun hle => (h ⟨by omega, by omega⟩).elim⟩

lemma read_value_eq (size : Nat) (sf : Nat → Nat) (b : CBuffer) (offset : Nat)
    (hoff : offset + size ≤ b.byte_length) :
    CBUFFER_READ_VALUE size sf (some b) offset
      = sf (bytesToValLE ((b.data.drop offset).take size)) := by
  have hch : CBUFFER_BOUNDS_CHECK (some b) offset size = 0 := (bounds_check_iff b offset size).2 hoff
  simp [CBUFFER_READ_VALUE, hch]

lemma write_value_restores (size : Nat) (sf : Nat → Nat) (b : CBuffer) (offset v : Nat)
    (hlen : b.byte_length = b.data.length) (hoff : offset + size ≤ b.byte_length)
    (hv : valToBytesLE size (sf v) = (b.data.drop offset).take size) :
    CBUFFER_WRITE_VALUE size sf (some b) offset v = (some b, 0) := by
  have hch : CBUFFER_BOUNDS_CHECK (some b) offset size = 0 := (bounds_check_iff b offset size).2 hoff
  simp only [CBUFFER_WRITE_VALUE, hch]
  rw [if_neg (by simp)]
  rw [hv, listSet_slice b.data offset size (by omega)]

lemma write_value_wf (size : Nat) (sf : Nat → Nat) (b : CBuffer) (offset value : Nat)
    (hwfb : WF b) :
    ∃ b', (CBUFFER_WRITE_VALUE size sf (some b) offset value).1 = some b' ∧ WF b' := by
  obtain ⟨hlen, hlc, hcap1, hcapM, hbytes⟩ := hwfb
  unfold CBUFFER_WRITE_VALUE
  by_cases hch : CBUFFER_BOUNDS_CHECK (some b) offset size ≠ 0
  · exact ⟨b, by rw [if_pos hch], hlen, hlc, hcap1, hcapM, hbytes⟩
  · rw [if_neg hch]
    have hoff : offset + size ≤ b.byte_length :=
      (bounds_check_iff b offset size).1 (by omega)
    refine ⟨_, rfl, ?_, hlc, hcap1, hcapM, ?_⟩
    · simp only
      rw [listSet_length b.data offset _ (by rw [valToBytesLE_length]; omega)]
      exact hlen
    · simp only
      exact mem_listSet_lt b.data offset _ hbytes (valToBytesLE_lt size _)

lemma write_value_snd_eq_zero (size : Nat) (sf : Nat → Nat) (b : Option CBuffer)
    (offset value : Nat) : (CBUFFER_WRITE_VALUE size sf b offset value).2 = 0 := by
  unfold CBUFFER_WRITE_VALUE
  split
  · rfl
  · match b with
    | none => rfl
    | some buf => rfl

lemma from_some_wf (src : List Nat) (src_len : Nat) (hb : ∀ x ∈ src, x < 256)
    (hsl : src_len ≤ src.length) (hM : src_len < SIZE_T_MOD) :
    WF (cbuffer_from (some src) src_len) := by
  by_cases h0 : src_len = 0
  · subst h0
    rw [show cbuffer_from (some src) 0 = cbuffer_alloc CBUFFER_DEFAULT_CAPACITY from rfl]
    decide
  · simp only [cbuffer_from, if_neg h0]
    refine ⟨?_, le_refl _, show 1 ≤ src_len by omega, hM, ?_⟩
    · simp only [List.length_take]
      omega
    · intro x hx
      exact hb x (List.take_subset _ _ hx)

lemma scalar_rw_generic (size : Nat) (sw : Nat → Nat) (b : CBuffer) (offset : Nat)
    (swap : Bool) (hwfb : WF b) (hoff : offset + size ≤ b.byte_length)
    (hsw : ∀ l : List Nat, l.length = size → (∀ x ∈ l, x < 256) →
      sw (bytesToValLE l) = bytesToValLE l.reverse) :
    CBUFFER_READ_VALUE size (fun v => if swap then sw v else v) (some b) offset
        = bytesToValLE (specReorder swap ((b.data.drop offset).take size)) ∧
    CBUFFER_WRITE_VALUE size (fun v => if swap then sw v else v) (some b) offset
        (CBUFFER_READ_VALUE size (fun v => if swap then sw v else v) (some b) offset)
        = (some b, 0) := by
  obtain ⟨hlen, hlc, hcap1, hcapM, hbytes⟩ := hwfb
  have hofflen : offset + size ≤ b.data.length := by omega
  have hseglen := dropTake_length b.data offset size hofflen
  have hsegbytes : ∀ x ∈ (b.data.drop offset).take size, x < 256 :=
    fun x hx => hbytes x (List.drop_subset _ _ (List.take_subset _ _ hx))
  have hread := read_value_eq size (fun v => if swap then sw v else v) b offset hoff
  have hroundtrip := valToBytes_bytesToVal ((b.data.drop offset).take size) hsegbytes
  rw [hseglen] at hroundtrip
  cases swap with
  | false =>
    constructor
    · rw [hread]
      simp [specReorder]
    · apply write_value_restores size _ b offset _ hlen hoff
      rw [hread]
      simp only [Bool.false_eq_true, if_false]
      exact hroundtrip
  | true =>
    have hswseg := hsw _ hseglen hsegbytes
    have hswrev := hsw ((b.data.drop offset).take size).reverse (by simp [hseglen])
      (fun x hx => hsegbytes x (List.mem_reverse.1 hx))
    constructor
    · rw [hread]
      simp [specReorder, hswseg]
    · apply write_value_restores size _ b offset _ hlen hoff
      rw [hread]
      simp only [if_true]
      rw [hswseg, hswrev, List.reverse_reverse]
      exact hroundtrip

/-! ### Claim theorems -/

/-- C9: for every buffer capacity at least 1 and every requested size, the
capacity-doubling loop of `cbuffer_ensure_capacity` terminates within the
bounded fuel `GROW_FUEL = 66`: repeated doubling modulo `2^64` either reaches
or exceeds the requested size, or wraps below the original capacity and is
snapped to the requested size. -/
theorem c9_growth_loop_terminates (cap size : Nat) (hcap : 1 ≤ cap)
    (hc : cap < SIZE_T_MOD) (hs : size < SIZE_T_MOD) :
    ∃ r, growLoop GROW_FUEL cap cap size = some r ∧ size ≤ r ∧
      (r = size ∨ ∃ k, r = cap * 2 ^ k % SIZE_T_MOD) := by
  obtain ⟨r, h1, h2, _, h4⟩ := growLoop_terminates cap size hcap hc hs
  exact ⟨r, h1, h2, h4⟩

theorem c9_growth_loop_terminates_witness :
    1 ≤ 3 ∧ ∃ r, growLoop GROW_FUEL 3 3 1000 = some r ∧ 1000 ≤ r ∧
      (r = 1000 ∨ ∃ k, r = 3 * 2 ^ k % SIZE_T_MOD) :=
  ⟨by norm_num,
    c9_growth_loop_terminates 3 1000 (by norm_num) (by norm_num [SIZE_T_MOD])
      (by norm_num [SIZE_T_MOD])⟩

/-- C2: for a buffer with capacity at least 1, `cbuffer_ensure_capacity` is a
no-op when `capacity ≥ minSize`; otherwise, on success, the new capacity is the
result of repeatedly doubling the old capacity (modulo `2^64`) until it reaches
or exceeds `minSize`, snapped directly to `minSize` when a doubling wraps below
the current capacity, and the existing bytes and length are unchanged. -/
theorem c2_ensure_capacity (b : CBuffer) (size : Nat) (hcap : 1 ≤ b.capacity)
    (hc : b.capacity < SIZE_T_MOD) (hs : size < SIZE_T_MOD) :
    (size ≤ b.capacity → ∀ allocOk, cbuffer_ensure_capacity allocOk b size = some (0, b)) ∧
    (b.capacity < size →
      ∃ newCap, cbuffer_ensure_capacity true b size = some (0, { b with capacity := newCap }) ∧
        size ≤ newCap ∧ (newCap = size ∨ ∃ k, newCap = b.capacity * 2 ^ k % SIZE_T_MOD)) := by
  constructor
  · intro hle allocOk
    simp [cbuffer_ensure_capacity, hle]
  · intro hgt
    obtain ⟨r, h1, h2, _, h4⟩ := growLoop_terminates b.capacity size hcap hc hs
    refine ⟨r, ?_, h2, h4⟩
    simp [cbuffer_ensure_capacity, Nat.not_le.2 hgt, h1]

theorem c2_ensure_capacity_witness :
    1 ≤ (cbuffer_from (some [1]) 1).capacity ∧ (cbuffer_from (some [1]) 1).capacity < 5 ∧
    ∃ newCap, cbuffer_ensure_capacity true (cbuffer_from (some [1]) 1) 5
        = some (0, { cbuffer_from (some [1]) 1 with capacity := newCap }) ∧
      5 ≤ newCap ∧
      (newCap = 5 ∨ ∃ k, newCap = (cbuffer_from (some [1]) 1).capacity * 2 ^ k % SIZE_T_MOD) :=
  ⟨by decide, by decide,
    (c2_ensure_capacity (cbuffer_from (some [1]) 1) 5 (by decide)
      (by norm_num [cbuffer_from, SIZE_T_MOD]) (by norm_num [SIZE_T_MOD])).2 (by decide)⟩

/-- C5 (amended): `cbuffer_clone` returns a buffer with the same length and
identical byte content (so `equals` holds); its capacity equals its length when
the source is nonempty, but an empty source yields a default-capacity
(64-byte) empty clone rather than a zero-capacity one. -/
theorem c5_clone_amended (b : CBuffer) (hwf : WF b) :
    (cbuffer_clone b).byte_length = b.byte_length ∧
    (cbuffer_clone b).data = b.data ∧
    cbuffer_equals b (cbuffer_clone b) = true ∧
    (1 ≤ b.byte_length → (cbuffer_clone b).capacity = b.byte_length) ∧
    (b.byte_length = 0 → (cbuffer_clone b).capacity = CBUFFER_DEFAULT_CAPACITY) := by
  obtain ⟨hlen, _, _, _, _⟩ := hwf
  by_cases h0 : b.byte_length = 0
  · have hdata : b.data = [] := List.length_eq_zero.1 (by omega)
    refine ⟨?_, ?_, ?_, ?_, ?_⟩ <;>
      simp [cbuffer_clone, cbuffer_from, cbuffer_alloc, h0, hdata, cbuffer_equals,
        CBUFFER_DEFAULT_CAPACITY]
  · have htake : b.data.take b.byte_length = b.data := by
      rw [hlen]; exact List.take_length _
    refine ⟨?_, ?_, ?_, ?_, ?_⟩ <;>
      simp [cbuffer_clone, cbuffer_from, h0, htake, cbuffer_equals]

theorem c5_clone_amended_witness :
    WF (cbuffer_from (some [7, 0, 9]) 3) ∧
    ((cbuffer_clone (cbuffer_from (some [7, 0, 9]) 3)).byte_length
        = (cbuffer_from (some [7, 0, 9]) 3).byte_length ∧
      (cbuffer_clone (cbuffer_from (some [7, 0, 9]) 3)).data
        = (cbuffer_from (some [7, 0, 9]) 3).data ∧
      cbuffer_equals (cbuffer_from (some [7, 0, 9]) 3)
        (cbuffer_clone (cbuffer_from (some [7, 0, 9]) 3)) = true ∧
      (1 ≤ (cbuffer_from (some [7, 0, 9]) 3).byte_length →
        (cbuffer_clone (cbuffer_from (some [7, 0, 9]) 3)).capacity
          = (cbuffer_from (some [7, 0, 9]) 3).byte_length) ∧
      ((cbuffer_from (some [7, 0, 9]) 3).byte_length = 0 →
        (cbuffer_clone (cbuffer_from (some [7, 0, 9]) 3)).capacity
          = CBUFFER_DEFAULT_CAPACITY)) :=
  ⟨by decide, c5_clone_amended (cbuffer_from (some [7, 0, 9]) 3) (by decide)⟩

/-- C5 counterexample: for the empty buffer, the clone's capacity is the
default capacity 64, not its length 0, so "capacity of the clone equals its
length — including for an empty b" fails. -/
theorem c5_clone_counterexample :
    ¬ (cbuffer_clone (cbuffer_alloc 0)).capacity
        = (cbuffer_clone (cbuffer_alloc 0)).byte_length := by
  decide

/-- C8 (amended): the "aes" sub-mode lookup is case-sensitive, accepting
exactly the all-lowercase and all-uppercase spellings: "gcm"/"GCM" yield the
GCM descriptor (IV length 12, tag length 16, key sizes {16, 24, 32}),
"ccm"/"CCM" yield the CCM descriptor, and anything else — including mixed-case
variants and "xts" — yields "not found". -/
theorem c8_aead_aes_amended :
    (∀ s : String, aead_aes (some s) = some AEAD_AES_GCM_MODE ↔ s = "gcm" ∨ s = "GCM") ∧
    (∀ s : String, aead_aes (some s) = some AEAD_AES_CCM_MODE ↔ s = "ccm" ∨ s = "CCM") ∧
    aead_aes none = none ∧
    AEAD_AES_GCM_MODE.iv_length = 12 ∧ AEAD_AES_GCM_MODE.tag_length = 16 ∧
    AEAD_AES_GCM_MODE.allowed_key_sizes = [16, 24, 32] ∧
    aead_aes (some "xts") = none := by
  refine ⟨?_, ?_, rfl, rfl, rfl, rfl, by decide⟩
  · intro s
    by_cases h1 : s = "ccm" ∨ s = "CCM"
    · rcases h1 with rfl | rfl <;> decide
    · by_cases h2 : s = "gcm" ∨ s = "GCM"
      · rcases h2 with rfl | rfl <;> decide
      · simp [aead_aes, h1, h2]
  · intro s
    by_cases h1 : s = "ccm" ∨ s = "CCM"
    · rcases h1 with rfl | rfl <;> decide
    · by_cases h2 : s = "gcm" ∨ s = "GCM"
      · rcases h2 with rfl | rfl <;> decide
      · simp [aead_aes, h1, h2]

/-- C8 counterexample: the mixed-case variant "Gcm" does not find the GCM
descriptor, so the lookup is not case-insensitive on every case variant. -/
theorem c8_aead_aes_counterexample : aead_aes (some "Gcm") = none := by
  decide

/-- C1 (amended): the bounds check fails exactly when the buffer is absent,
`offset > length`, or `length - offset < N/8`; however the scalar accessors do
not signal a distinct failure outcome: on a failed bounds check `readUintN`
returns the plain numeric `0` (conflatable with a legitimately-read zero) and
`writeUintN` returns `0` with the buffer untouched, the same `0` it also
returns on success. -/
theorem c1_bounds_failure_returns_zero :
    (∀ (b : Option CBuffer) (offset size : Nat),
      CBUFFER_BOUNDS_CHECK b offset size ≠ 0 ↔
        (b = none ∨ ∃ buf, b = some buf ∧
          (offset > buf.byte_length ∨ buf.byte_length - offset < size))) ∧
    (∀ (b : Option CBuffer) (offset : Nat) (swap : Bool),
      CBUFFER_BOUNDS_CHECK b offset 2 ≠ 0 → cbuffer_read_uint16 b offset swap = 0) ∧
    (∀ (b : Option CBuffer) (offset : Nat) (swap : Bool),
      CBUFFER_BOUNDS_CHECK b offset 4 ≠ 0 → cbuffer_read_uint32 b offset swap = 0) ∧
    (∀ (b : Option CBuffer) (offset : Nat) (swap : Bool),
      CBUFFER_BOUNDS_CHECK b offset 8 ≠ 0 → cbuffer_read_uint64 b offset swap = 0) ∧
    (∀ (b : Option CBuffer) (offset value : Nat) (swap : Bool),
      CBUFFER_BOUNDS_CHECK b offset 2 ≠ 0 → cbuffer_write_uint16 b offset value swap = (b, 0)) ∧
    (∀ (b : Option CBuffer) (offset value : Nat) (swap : Bool),
      CBUFFER_BOUNDS_CHECK b offset 4 ≠ 0 → cbuffer_write_uint32 b offset value swap = (b, 0)) ∧
    (∀ (b : Option CBuffer) (offset value : Nat) (swap : Bool),
      CBUFFER_BOUNDS_CHECK b offset 8 ≠ 0 → cbuffer_write_uint64 b offset value swap = (b, 0)) ∧
    (∀ (b : Option CBuffer) (offset value : Nat) (swap : Bool),
      (cbuffer_write_uint16 b offset value swap).2 = 0 ∧
      (cbuffer_write_uint32 b offset value swap).2 = 0 ∧
      (cbuffer_write_uint64 b offset value swap).2 = 0) := by
  refine ⟨?_, ?_, ?_, ?_, ?_, ?_, ?_, ?_⟩
  · intro b offset size
    match b with
    | none => simp [CBUFFER_BOUNDS_CHECK]
    | some buf =>
      by_cases h : offset ≤ buf.byte_length ∧ size ≤ buf.byte_length - offset
      · simp only [CBUFFER_BOUNDS_CHECK, if_pos h]
        simp
        omega
      · simp only [CBUFFER_BOUNDS_CHECK, if_neg h]
        norm_num
        omega
  · intro b offset swap h
    simp [cbuffer_read_uint16, CBUFFER_READ_VALUE, h]
  · intro b offset swap h
    simp [cbuffer_read_uint32, CBUFFER_READ_VALUE, h]
  · intro b offset swap h
    simp [cbuffer_read_uint64, CBUFFER_READ_VALUE, h]
  · intro b offset value swap h
    simp [cbuffer_write_uint16, CBUFFER_WRITE_VALUE, h]
  · intro b offset value swap h
    simp [cbuffer_write_uint32, CBUFFER_WRITE_VALUE, h]
  · intro b offset value swap h
    simp [cbuffer_write_uint64, CBUFFER_WRITE_VALUE, h]
  · intro b offset value swap
    exact ⟨write_value_snd_eq_zero 2 _ b offset value, write_value_snd_eq_zero 4 _ b offset value,
      write_value_snd_eq_zero 8 _ b offset value⟩

theorem c1_bounds_failure_returns_zero_witness :
    CBUFFER_BOUNDS_CHECK (some (cbuffer_alloc 1)) 0 2 ≠ 0 ∧
    cbuffer_read_uint16 (some (cbuffer_alloc 1)) 0 false = 0 :=
  ⟨by decide, c1_bounds_failure_returns_zero.2.1 (some (cbuffer_alloc 1)) 0 false (by decide)⟩

/-- C1 counterexample: a failed bounds check and a legitimately-read zero give
the very same plain numeric result `0` from `readUint16` — the empty buffer at
offset 0 fails the bounds check and returns `0`, and the two-byte zero buffer
passes the bounds check and also returns `0`; `writeUint16` likewise returns
`0` both on a failed bounds check and on success.  So the outcomes are not
distinct. -/
theorem c1_bounds_failure_conflated :
    CBUFFER_BOUNDS_CHECK (some (cbuffer_alloc 1)) 0 2 ≠ 0 ∧
    CBUFFER_BOUNDS_CHECK (some (cbuffer_from (some [0, 0]) 2)) 0 2 = 0 ∧
    cbuffer_read_uint16 (some (cbuffer_alloc 1)) 0 false
      = cbuffer_read_uint16 (some (cbuffer_from (some [0, 0]) 2)) 0 false ∧
    (cbuffer_write_uint16 (some (cbuffer_alloc 1)) 0 7 false).2
      = (cbuffer_write_uint16 (some (cbuffer_from (some [0, 0]) 2)) 0 7 false).2 := by
  refine ⟨by decide, by decide, by decide, by decide⟩

/-- C7: `cbuffer_subarray` treats `end = 0` or `end > length` as "to the end of
the buffer"; when `start ≥ length` or `start ≥ end` it returns a fresh empty
(default-capacity) buffer rather than failing; otherwise it returns an
independent copy of the bytes `[start, end)`.  In particular, for the 5-byte
buffer `[10,20,30,40,50]`, `subarray 1 0` returns `[20,30,40,50]`. -/
theorem c7_subarray (b : CBuffer) (start e : Nat) (_hwf : WF b) :
    ((e = 0 ∨ e > b.byte_length) →
      cbuffer_subarray b start e = cbuffer_subarray b start b.byte_length) ∧
    ((start ≥ b.byte_length ∨ start ≥ (if e = 0 ∨ e > b.byte_length then b.byte_length else e)) →
      cbuffer_subarray b start e = cbuffer_alloc 0 ∧
      (cbuffer_subarray b start e).byte_length = 0 ∧
      (cbuffer_subarray b start e).data = [] ∧
      (cbuffer_subarray b start e).capacity = CBUFFER_DEFAULT_CAPACITY) ∧
    ((start < b.byte_length ∧
        start < (if e = 0 ∨ e > b.byte_length then b.byte_length else e)) →
      (cbuffer_subarray b start e).byte_length
          = (if e = 0 ∨ e > b.byte_length then b.byte_length else e) - start ∧
      (cbuffer_subarray b start e).data
          = (b.data.drop start).take
              ((if e = 0 ∨ e > b.byte_length then b.byte_length else e) - start)) ∧
    (cbuffer_subarray (cbuffer_from (some [10, 20, 30, 40, 50]) 5) 1 0).data
      = [20, 30, 40, 50] := by
  refine ⟨?_, ?_, ?_, by decide⟩
  · intro h
    simp only [cbuffer_subarray]
    rw [if_pos h, ite_self]
  · intro h
    have hres : cbuffer_subarray b start e = cbuffer_alloc 0 := by
      simp only [cbuffer_subarray]
      rw [if_pos h]
    refine ⟨hres, ?_, ?_, ?_⟩ <;> rw [hres] <;> rfl
  · rintro ⟨h1, h2⟩
    have hres : cbuffer_subarray b start e
        = cbuffer_from (some (b.data.drop start))
            ((if e = 0 ∨ e > b.byte_length then b.byte_length else e) - start) := by
      simp only [cbuffer_subarray]
      rw [if_neg (by omega)]
    rw [hres]
    simp only [cbuffer_from]
    rw [if_neg (by omega)]
    exact ⟨rfl, rfl⟩

theorem c7_subarray_witness :
    WF (cbuffer_from (some [10, 20, 30, 40, 50]) 5) ∧
    ((1 < (cbuffer_from (some [10, 20, 30, 40, 50]) 5).byte_length ∧
        1 < (if (3 : Nat) = 0 ∨ 3 > (cbuffer_from (some [10, 20, 30, 40, 50]) 5).byte_length
          then (cbuffer_from (some [10, 20, 30, 40, 50]) 5).byte_length else 3)) →
      (cbuffer_subarray (cbuffer_from (some [10, 20, 30, 40, 50]) 5) 1 3).byte_length
          = (if (3 : Nat) = 0 ∨ 3 > (cbuffer_from (some [10, 20, 30, 40, 50]) 5).byte_length
            then (cbuffer_from (some [10, 20, 30, 40, 50]) 5).byte_length else 3) - 1 ∧
      (cbuffer_subarray (cbuffer_from (some [10, 20, 30, 40, 50]) 5) 1 3).data
          = ((cbuffer_from (some [10, 20, 30, 40, 50]) 5).data.drop 1).take
              ((if (3 : Nat) = 0 ∨ 3 > (cbuffer_from (some [10, 20, 30, 40, 50]) 5).byte_length
                then (cbuffer_from (some [10, 20, 30, 40, 50]) 5).byte_length else 3) - 1)) :=
  ⟨by decide, (c7_subarray (cbuffer_from (some [10, 20, 30, 40, 50]) 5) 1 3 (by decide)).2.2.1⟩

/-- C4: a successful `cbuffer_write` appends exactly the `src_len` source
bytes at the current end of the buffer (leaving the first `byte_length` bytes
unchanged), returns the number of bytes written, and leaves the length equal
to the old length plus `src_len` (with `capacity ≥ length`); `src_len = 0` or
an absent source is a successful no-op returning `0`, never an error. -/
theorem c4_write_appends (b : CBuffer) (src : List Nat) (src_len : Nat) (hwf : WF b)
    (hsl : src_len ≤ src.length) (hnowrap : b.byte_length + src_len < SIZE_T_MOD)
    (hint : src_len ≤ 2 ^ 31 - 1) :
    (∃ b', cbuffer_write true b (some src) src_len = some ((src_len : Int), b') ∧
      b'.data = b.data ++ src.take src_len ∧
      b'.byte_length = b.byte_length + src_len ∧
      b'.byte_length ≤ b'.capacity) ∧
    (∀ allocOk slen, cbuffer_write allocOk b none slen = some (0, b)) ∧
    (∀ allocOk, cbuffer_write allocOk b (some src) 0 = some (0, b)) := by
  obtain ⟨hlen, hlc, hcap1, hcapM, hbytes⟩ := hwf
  refine ⟨?_, fun allocOk slen => rfl, fun allocOk => by simp [cbuffer_write]⟩
  by_cases h0 : src_len = 0
  · subst h0
    refine ⟨b, by simp [cbuffer_write], by simp, by simp, hlc⟩
  · have htr : (b.byte_length + src_len) % SIZE_T_MOD = b.byte_length + src_len :=
      Nat.mod_eq_of_lt hnowrap
    obtain ⟨b1, he, hbl, hdata, hsz, hcaple, hcapM'⟩ :=
      ensure_capacity_true_succeeds b ((b.byte_length + src_len) % SIZE_T_MOD) hcap1 hcapM
        (Nat.mod_lt _ (by norm_num [SIZE_T_MOD]))
    refine ⟨⟨(b.byte_length + src_len) % SIZE_T_MOD, b1.capacity,
      b1.data ++ src.take src_len⟩, ?_, ?_, ?_, ?_⟩
    · rw [show ((src_len : Int)) = toInt32 src_len from (toInt32_small src_len hint).symm]
      simp [cbuffer_write, h0, he]
    · simp [hdata]
    · simp [htr]
    · simp only
      omega

theorem c4_write_appends_witness :
    WF (cbuffer_from (some [1]) 1) ∧
    (∃ b', cbuffer_write true (cbuffer_from (some [1]) 1) (some [2, 3]) 2
        = some ((2 : Int), b') ∧
      b'.data = (cbuffer_from (some [1]) 1).data ++ ([2, 3] : List Nat).take 2 ∧
      b'.byte_length = (cbuffer_from (some [1]) 1).byte_length + 2 ∧
      b'.byte_length ≤ b'.capacity) :=
  ⟨by decide,
    (c4_write_appends (cbuffer_from (some [1]) 1) [2, 3] 2 (by decide) (by decide)
      (by norm_num [cbuffer_from, SIZE_T_MOD]) (by norm_num)).1⟩

/-- C10: `cbuffer_write` computes its target length `byte_length + src_len` in
unwrapped `size_t` arithmetic with no overflow guard: when the sum wraps
modulo `2^64`, the capacity request and the resulting `byte_length` are the
wrapped (smaller) sum — here the wrapped request is below the current
capacity, so the capacity is left unchanged — rather than a failure; and the
returned byte count is `src_len` cast to `int`, which differs from `src_len`
whenever `src_len` exceeds `INT_MAX`. -/
theorem c10_write_overflow_wraps (b : CBuffer) (src : List Nat) (src_len : Nat)
    (hlc : b.byte_length ≤ b.capacity) (hcapM : b.capacity < SIZE_T_MOD)
    (hwrap : SIZE_T_MOD ≤ b.byte_length + src_len) (hslM : src_len < SIZE_T_MOD) :
    ∃ b', cbuffer_write true b (some src) src_len = some (toInt32 src_len, b') ∧
      b'.byte_length = (b.byte_length + src_len) % SIZE_T_MOD ∧
      b'.byte_length < b.byte_length ∧
      b'.capacity = b.capacity ∧
      (2 ^ 31 - 1 < src_len → toInt32 src_len ≠ (src_len : Int)) := by
  have hw : 2 ^ 64 ≤ b.byte_length + src_len := hwrap
  have hs64 : src_len < 2 ^ 64 := hslM
  have hc64 : b.capacity < 2 ^ 64 := hcapM
  have h0 : src_len ≠ 0 := by omega
  have htr : (b.byte_length + src_len) % SIZE_T_MOD = b.byte_length + src_len - 2 ^ 64 := by
    show (b.byte_length + src_len) % 2 ^ 64 = b.byte_length + src_len - 2 ^ 64
    omega
  have htrlt : (b.byte_length + src_len) % SIZE_T_MOD < b.byte_length := by
    rw [htr]; omega
  have hensure : cbuffer_ensure_capacity true b ((b.byte_length + src_len) % SIZE_T_MOD)
      = some (0, b) := by
    have hle : (b.byte_length + src_len) % SIZE_T_MOD ≤ b.capacity := by
      rw [htr]; omega
    simp [cbuffer_ensure_capacity, hle]
  refine ⟨⟨(b.byte_length + src_len) % SIZE_T_MOD, b.capacity, b.data ++ src.take src_len⟩,
    ?_, rfl, htrlt, rfl, fun hbig => toInt32_ne_of_large src_len hbig⟩
  simp [cbuffer_write, h0, hensure]

theorem c10_write_overflow_wraps_witness :
    (2 ^ 64 - 1 : Nat) ≤ (2 ^ 64 - 1 : Nat) ∧
    ∃ b', cbuffer_write true ⟨2 ^ 64 - 1, 2 ^ 64 - 1, []⟩ (some []) (2 ^ 63 + 1)
        = some (toInt32 (2 ^ 63 + 1), b') ∧
      b'.byte_length = ((2 ^ 64 - 1) + (2 ^ 63 + 1)) % SIZE_T_MOD ∧
      b'.byte_length < (2 ^ 64 - 1 : Nat) ∧
      b'.capacity = (2 ^ 64 - 1 : Nat) ∧
      (2 ^ 31 - 1 < 2 ^ 63 + 1 → toInt32 (2 ^ 63 + 1) ≠ ((2 ^ 63 + 1 : Nat) : Int)) :=
  ⟨le_refl _,
    c10_write_overflow_wraps ⟨2 ^ 64 - 1, 2 ^ 64 - 1, []⟩ [] (2 ^ 63 + 1) (le_refl _)
      (by norm_num [SIZE_T_MOD]) (by norm_num [SIZE_T_MOD]) (by norm_num [SIZE_T_MOD])⟩

/-- C3: every operation (alloc, from, write, ensureCapacity, clone, subarray,
scalar writes) preserves the invariant `length ≤ capacity` (well-formedness)
on every buffer it returns or mutates, and a failed `ensureCapacity` (realloc
failure) or a failed `write` leaves the buffer exactly as it was before the
call. -/
theorem c3_invariant_preservation :
    (∀ n, n < SIZE_T_MOD → WF (cbuffer_alloc n)) ∧
    (∀ (src : List Nat) src_len, (∀ x ∈ src, x < 256) → src_len ≤ src.length →
      src_len < SIZE_T_MOD → WF (cbuffer_from (some src) src_len)) ∧
    (∀ src_len, WF (cbuffer_from none src_len)) ∧
    (∀ (b : CBuffer) size allocOk, WF b → size < SIZE_T_MOD →
      ∃ ret b', cbuffer_ensure_capacity allocOk b size = some (ret, b') ∧ WF b' ∧
        (ret ≠ 0 → b' = b)) ∧
    (∀ (b : CBuffer) (src : List Nat) src_len, WF b → (∀ x ∈ src, x < 256) →
      src_len ≤ src.length → b.byte_length + src_len < SIZE_T_MOD →
      (∃ ret b', cbuffer_write true b (some src) src_len = some (ret, b') ∧ WF b') ∧
      (b.capacity < b.byte_length + src_len →
        cbuffer_write false b (some src) src_len = some (-1, b))) ∧
    (∀ b : CBuffer, WF b → WF (cbuffer_clone b)) ∧
    (∀ (b : CBuffer) start e, WF b → WF (cbuffer_subarray b start e)) ∧
    (∀ (b : CBuffer) offset value swap, WF b →
      ∃ b', (cbuffer_write_uint16 (some b) offset value swap).1 = some b' ∧ WF b') ∧
    (∀ (b : CBuffer) offset value swap, WF b →
      ∃ b', (cbuffer_write_uint32 (some b) offset value swap).1 = some b' ∧ WF b') ∧
    (∀ (b : CBuffer) offset value swap, WF b →
      ∃ b', (cbuffer_write_uint64 (some b) offset value swap).1 = some b' ∧ WF b') := by
  refine ⟨?_, fun src src_len hb hsl hM => from_some_wf src src_len hb hsl hM,
    fun src_len => show WF (cbuffer_alloc CBUFFER_DEFAULT_CAPACITY) from by decide, ?_, ?_, ?_,
    ?_,
    fun b offset value swap hwfb => write_value_wf 2 _ b offset value hwfb,
    fun b offset value swap hwfb => write_value_wf 4 _ b offset value hwfb,
    fun b offset value swap hwfb => write_value_wf 8 _ b offset value hwfb⟩
  · intro n hn
    have hn' : n < 2 ^ 64 := hn
    unfold WF cbuffer_alloc
    by_cases h : n > 0 <;>
      · simp [h, CBUFFER_DEFAULT_CAPACITY, SIZE_T_MOD]
        try omega
  · intro b size allocOk hwfb hsM
    obtain ⟨hlen, hlc, hcap1, hcapM, hbytes⟩ := hwfb
    by_cases hle : size ≤ b.capacity
    · exact ⟨0, b, by simp [cbuffer_ensure_capacity, hle], ⟨hlen, hlc, hcap1, hcapM, hbytes⟩,
        fun hne => absurd rfl hne⟩
    · obtain ⟨r, h1, h2, h3, _⟩ := growLoop_terminates b.capacity size hcap1 hcapM hsM
      cases allocOk with
      | true =>
        exact ⟨0, { b with capacity := r }, by simp [cbuffer_ensure_capacity, hle, h1],
          ⟨hlen, show b.byte_length ≤ r by omega, show 1 ≤ r by omega, h3, hbytes⟩,
          fun hne => absurd rfl hne⟩
      | false =>
        exact ⟨-1, b, by simp [cbuffer_ensure_capacity, hle, h1],
          ⟨hlen, hlc, hcap1, hcapM, hbytes⟩, fun _ => rfl⟩
  · intro b src src_len hwfb hb hsl hnw
    obtain ⟨hlen, hlc, hcap1, hcapM, hbytes⟩ := hwfb
    constructor
    · by_cases h0 : src_len = 0
      · subst h0
        exact ⟨0, b, by simp [cbuffer_write], ⟨hlen, hlc, hcap1, hcapM, hbytes⟩⟩
      · have htr : (b.byte_length + src_len) % SIZE_T_MOD = b.byte_length + src_len :=
          Nat.mod_eq_of_lt hnw
        obtain ⟨b1, he, hbl, hdata, hsz, hcaple, hcapM'⟩ :=
          ensure_capacity_true_succeeds b ((b.byte_length + src_len) % SIZE_T_MOD) hcap1 hcapM
            (Nat.mod_lt _ (by norm_num [SIZE_T_MOD]))
        refine ⟨toInt32 src_len, ⟨(b.byte_length + src_len) % SIZE_T_MOD, b1.capacity,
          b1.data ++ src.take src_len⟩, ?_, ?_, ?_, ?_, ?_, ?_⟩
        · simp [cbuffer_write, h0, he]
        · show (b.byte_length + src_len) % SIZE_T_MOD = (b1.data ++ src.take src_len).length
          rw [htr, hdata]
          simp only [List.length_append, List.length_take]
          omega
        · exact hsz
        · show 1 ≤ b1.capacity
          omega
        · exact hcapM'
        · intro x hx
          rcases List.mem_append.1 hx with hx1 | hx2
          · exact hbytes x (by rwa [hdata] at hx1)
          · exact hb x (List.take_subset _ _ hx2)
    · intro hgt
      have h0 : src_len ≠ 0 := by omega
      have htr : (b.byte_length + src_len) % SIZE_T_MOD = b.byte_length + src_len :=
        Nat.mod_eq_of_lt hnw
      have hens := ensure_capacity_false_fails b ((b.byte_length + src_len) % SIZE_T_MOD)
        hcap1 hcapM (Nat.mod_lt _ (by norm_num [SIZE_T_MOD])) (by omega)
      simp [cbuffer_write, h0, hens]
  · intro b hwfb
    obtain ⟨hlen, hlc, hcap1, hcapM, hbytes⟩ := hwfb
    exact from_some_wf b.data b.byte_length hbytes (by omega) (by omega)
  · intro b start e hwfb
    obtain ⟨hlen, hlc, hcap1, hcapM, hbytes⟩ := hwfb
    simp only [cbuffer_subarray]
    by_cases hcl : e = 0 ∨ e > b.byte_length
    · rw [if_pos hcl]
      by_cases hc2 : start ≥ b.byte_length ∨ start ≥ b.byte_length
      · rw [if_pos hc2]; decide
      · rw [if_neg hc2]
        refine from_some_wf _ _ (fun x hx => hbytes x (List.drop_subset _ _ hx)) ?_ (by omega)
        simp only [List.length_drop]
        omega
    · rw [if_neg hcl]
      by_cases hc2 : start ≥ b.byte_length ∨ start ≥ e
      · rw [if_pos hc2]; decide
      · rw [if_neg hc2]
        refine from_some_wf _ _ (fun x hx => hbytes x (List.drop_subset _ _ hx)) ?_ (by omega)
        simp only [List.length_drop]
        omega

theorem c3_invariant_preservation_witness :
    (64 : Nat) < SIZE_T_MOD ∧ WF (cbuffer_alloc 64) ∧
    WF (cbuffer_from (some [5]) 1) ∧ WF (cbuffer_clone (cbuffer_from (some [5]) 1)) :=
  ⟨by norm_num [SIZE_T_MOD], c3_invariant_preservation.1 64 (by norm_num [SIZE_T_MOD]),
    c3_invariant_preservation.2.1 [5] 1 (by decide) (by decide) (by norm_num [SIZE_T_MOD]),
    c3_invariant_preservation.2.2.2.2.2.1 (cbuffer_from (some [5]) 1) (by decide)⟩

/-- C6: for each width N in {16, 32, 64} with byte count s = N/8, the scalar
read fails (bounds check nonzero) exactly when `offset + s` exceeds the
buffer's length; otherwise it returns the value formed from exactly the `s`
bytes at `offset` reordered per the requested endianness (byte-for-byte
reversal when the requested order differs from storage order), and writing
that value back at the same offset and endianness restores the original bytes,
leaving the buffer unchanged. -/
theorem c6_scalar_roundtrip (b : CBuffer) (hwf : WF b) (offset : Nat) (swap : Bool) :
    ((CBUFFER_BOUNDS_CHECK (some b) offset 2 = 0 ↔ offset + 2 ≤ b.byte_length) ∧
      (offset + 2 ≤ b.byte_length →
        cbuffer_read_uint16 (some b) offset swap
            = bytesToValLE (specReorder swap ((b.data.drop offset).take 2)) ∧
        cbuffer_write_uint16 (some b) offset
            (cbuffer_read_uint16 (some b) offset swap) swap = (some b, 0))) ∧
    ((CBUFFER_BOUNDS_CHECK (some b) offset 4 = 0 ↔ offset + 4 ≤ b.byte_length) ∧
      (offset + 4 ≤ b.byte_length →
        cbuffer_read_uint32 (some b) offset swap
            = bytesToValLE (specReorder swap ((b.data.drop offset).take 4)) ∧
        cbuffer_write_uint32 (some b) offset
            (cbuffer_read_uint32 (some b) offset swap) swap = (some b, 0))) ∧
    ((CBUFFER_BOUNDS_CHECK (some b) offset 8 = 0 ↔ offset + 8 ≤ b.byte_length) ∧
      (offset + 8 ≤ b.byte_length →
        cbuffer_read_uint64 (some b) offset swap
            = bytesToValLE (specReorder swap ((b.data.drop offset).take 8)) ∧
        cbuffer_write_uint64 (some b) offset
            (cbuffer_read_uint64 (some b) offset swap) swap = (some b, 0))) :=
  ⟨⟨bounds_check_iff b offset 2,
      fun hoff => scalar_rw_generic 2 swap_endian_16 b offset swap hwf hoff swap16_bytes⟩,
    ⟨bounds_check_iff b offset 4,
      fun hoff => scalar_rw_generic 4 swap_endian_32 b offset swap hwf hoff swap32_bytes⟩,
    ⟨bounds_check_iff b offset 8,
      fun hoff => scalar_rw_generic 8 swap_endian_64 b offset swap hwf hoff swap64_bytes⟩⟩

theorem c6_scalar_roundtrip_witness :
    WF (cbuffer_from (some [52, 18, 9]) 3) ∧
    ((CBUFFER_BOUNDS_CHECK (some (cbuffer_from (some [52, 18, 9]) 3)) 0 2 = 0
        ↔ 0 + 2 ≤ (cbuffer_from (some [52, 18, 9]) 3).byte_length) ∧
      (0 + 2 ≤ (cbuffer_from (some [52, 18, 9]) 3).byte_length →
        cbuffer_read_uint16 (some (cbuffer_from (some [52, 18, 9]) 3)) 0 true
            = bytesToValLE (specReorder true
                (((cbuffer_from (some [52, 18, 9]) 3).data.drop 0).take 2)) ∧
        cbuffer_write_uint16 (some (cbuffer_from (some [52, 18, 9]) 3)) 0
            (cbuffer_read_uint16 (some (cbuffer_from (some [52, 18, 9]) 3)) 0 true) true
            = (some (cbuffer_from (some [52, 18, 9]) 3), 0))) :=
  ⟨by decide, (c6_scalar_roundtrip (cbuffer_from (some [52, 18, 9]) 3) (by decide) 0 true).1⟩

end CSuite
